import Mathlib

/-
Verification of the multi-turn tool-orchestration core of the NextjsWithMcp
repository, as a shallow embedding in Lean 4.

Embedded source, file by file:
  * `lib/mcpClient.ts` (class MCPClient): argument resolution inside
    `connectToServers`, the `processQuery` conversation loop, the
    `executeTool` invoker with its result normalization, and `cleanup`.
  * `lib/actions.ts`: the `runQuery` session entry point.
  * `mcp-tools/math-server.js`: the `CallToolRequestSchema` handler cases
    used by the claims (`add`, `multiply`, `factorial`, `random`) together
    with `validateNumber`.

Modelling conventions:
  * JavaScript numbers are modelled as `Int`.  Every input a verified claim
    evaluates is an integer well inside the float-exact range, so `+`, `*`,
    comparisons and template interpolation agree with the JS semantics
    there.  `Number.isInteger` holds for every modelled value, so the
    `!Number.isInteger(n)` half of the factorial guard is identically
    false in the model; `NaN` is not representable.
  * The remote reasoning model is an oracle: a list of responses, one
    consumed per `anthropic.messages.create` call.  An exhausted list
    models a model call that raises (network/auth/quota failure).
  * An MCP request that the server answers with a JSON-RPC error (a thrown
    `McpError` in a request handler) surfaces to the caller of
    `client.request` as a rejected promise; this outcome is the `.err`
    constructor of `ToolCallOutcome`.
  * Effects are made explicit: `runQuery` returns, besides its result, the
    list of server connections opened during discovery and the list of
    connections closed before returning.
-/

/-! ## JSON values

`Json` models the JavaScript values that flow through tool inputs and tool
results.  `jsonStringify` models `JSON.stringify(v)` and
`jsonStringifyIndent` models `JSON.stringify(v, null, 2)`, including JSON
string escaping, on this fragment. -/

inductive Json where
  | null
  | bool (b : Bool)
  | num (n : Int)
  | str (s : String)
  | arr (xs : List Json)
  | obj (fields : List (String × Json))

def hexDigitChar (n : Nat) : Char :=
  if n < 10 then Char.ofNat (48 + n) else Char.ofNat (87 + n)

/-- Escape of a control character as a lowercase JSON unicode escape
(only code points below 0x20 reach this). -/
def controlEscape (n : Nat) : String :=
  "\\u00" ++ String.mk [hexDigitChar (n / 16), hexDigitChar (n % 16)]

def jsonEscapeChar (c : Char) : String :=
  if c = '"' then "\\\""
  else if c = '\\' then "\\\\"
  else if c = '\n' then "\\n"
  else if c = '\r' then "\\r"
  else if c = '\t' then "\\t"
  else if c = '\x08' then "\\b"
  else if c = '\x0c' then "\\f"
  else if c.toNat < 32 then controlEscape c.toNat
  else String.singleton c

def jsonQuote (s : String) : String :=
  "\"" ++ String.join (s.data.map jsonEscapeChar) ++ "\""

mutual

def jsonStringify : Json → String
  | .null => "null"
  | .bool b => cond b "true" "false"
  | .num n => toString n
  | .str s => jsonQuote s
  | .arr xs => "[" ++ stringifyElems xs ++ "]"
  | .obj fs => "\x7b" ++ stringifyFields fs ++ "\x7d"

def stringifyElems : List Json → String
  | [] => ""
  | [x] => jsonStringify x
  | x :: y :: rest => jsonStringify x ++ "," ++ stringifyElems (y :: rest)

def stringifyFields : List (String × Json) → String
  | [] => ""
  | [(k, v)] => jsonQuote k ++ ":" ++ jsonStringify v
  | (k, v) :: f :: rest => jsonQuote k ++ ":" ++ jsonStringify v ++ "," ++ stringifyFields (f :: rest)

end

mutual

def jsonIndent (ind : String) : Json → String
  | .null => "null"
  | .bool b => cond b "true" "false"
  | .num n => toString n
  | .str s => jsonQuote s
  | .arr [] => "[]"
  | .arr (x :: xs) => "[\n" ++ indentElems (ind ++ "  ") (x :: xs) ++ "\n" ++ ind ++ "]"
  | .obj [] => "\x7b\x7d"
  | .obj (f :: fs) => "\x7b\n" ++ indentFields (ind ++ "  ") (f :: fs) ++ "\n" ++ ind ++ "\x7d"

def indentElems (ind : String) : List Json → String
  | [] => ""
  | [x] => ind ++ jsonIndent ind x
  | x :: y :: rest => ind ++ jsonIndent ind x ++ ",\n" ++ indentElems ind (y :: rest)

def indentFields (ind : String) : List (String × Json) → String
  | [] => ""
  | [(k, v)] => ind ++ jsonQuote k ++ ": " ++ jsonIndent ind v
  | (k, v) :: f :: rest =>
      ind ++ jsonQuote k ++ ": " ++ jsonIndent ind v ++ ",\n" ++ indentFields ind (f :: rest)

end

/-- Models `JSON.stringify(v, null, 2)`, as used for the tool input rendered into a
`tool_use` step and for a non-array, non-string result content. -/
def jsonStringifyIndent (v : Json) : String := jsonIndent "" v

/-! ## Tool results and their normalization

Embeds `MCPClient.executeTool`, `lib/mcpClient.ts` lines 182-191: the shape
of `result.content` and its reduction to a single string. -/

/-- One entry of an MCP `tools/call` result content array.  The items the
embedded servers produce carry a `type` tag and, for text items, a `text`
field; only those two fields participate in the normalization by the client and
in its `JSON.stringify` fallback. -/
structure ContentItem where
  type : String
  text : Option String

def jsonOfItem (c : ContentItem) : Json :=
  .obj (("type", .str c.type) ::
    (match c.text with
     | some t => [("text", .str t)]
     | none => []))

/-- The runtime shape of `result.content` in `executeTool`: absent
(`undefined`/`null`, both falsy), an array of items, a plain string, or any
other object. -/
inductive ToolContent where
  | absent
  | items (xs : List ContentItem)
  | plain (s : String)
  | other (j : Json)

/-- JavaScript truthiness test `!content` on a `ToolContent`.  An empty
string is falsy; arrays and objects are always truthy. -/
def contentFalsy : ToolContent → Bool
  | .absent => true
  | .plain s => s = ""
  | .items _ => false
  | .other _ => false

def noOutputMsg : String := "Tool executed successfully (no output)."

/-- Models `c.text || JSON.stringify(c)`: the `text` field when it is truthy (a
nonempty string), else the item serialized. -/
def itemText (c : ContentItem) : String :=
  match c.text with
  | some t => if t = "" then jsonStringify (jsonOfItem c) else t
  | none => jsonStringify (jsonOfItem c)

/-- Result normalization of `executeTool` (`lib/mcpClient.ts` 182-191):
`if (!content) return noOutputMsg; if (Array.isArray(content)) return
content.map(c => c.text || JSON.stringify(c)).join("\n"); else if string
return content; else return JSON.stringify(content, null, 2)`. -/
def normalizeContent (content : ToolContent) : String :=
  if contentFalsy content then noOutputMsg
  else
    match content with
    | .items xs => String.intercalate "\n" (xs.map itemText)
    | .plain s => s
    | .other j => jsonStringifyIndent j
    | .absent => noOutputMsg

/-! ## The Tool Invoker: `executeTool` (`lib/mcpClient.ts` 168-199) -/

/-- Outcome of one `client.request({method: "tools/call"}, ...)` against one
server: a result content, or a rejected promise (`.err`, covering protocol
errors and thrown `McpError`s alike). -/
inductive ToolCallOutcome where
  | ok (content : ToolContent)
  | err

/-- A live server connection: its registration name and its `tools/call`
behaviour. -/
structure ServerConn where
  name : String
  call : String → Json → ToolCallOutcome

def notFoundMsg (toolName : String) : String :=
  "Tool \x27" ++ toolName ++ "\x27 not found in any server."

/-- Embeds `MCPClient.executeTool`: iterate the registered connections in insertion
order; the first request that resolves is normalized and returned; a
rejected request falls through to the next server; if every server fails,
return the not-found string (never throw). -/
def executeTool : List ServerConn → String → Json → String
  | [], toolName, _ => notFoundMsg toolName
  | conn :: rest, toolName, input =>
      match conn.call toolName input with
      | .ok content => normalizeContent content
      | .err => executeTool rest toolName input

/-! ## The math server (`mcp-tools/math-server.js`)

The `CallToolRequestSchema` handler cases exercised by the claims are
embedded: `add`, `multiply`, `factorial`, `random`, plus `validateNumber`.
A thrown `McpError` is delivered to the client as a JSON-RPC error, i.e. a
rejected `client.request`, hence `ToolCallOutcome.err` after `liftTool`.
The remaining cases (`power`, `is_prime`, `fibonacci`, the string and time
tools) involve float or clock semantics, are invoked by no claim, and are
not embedded; `mathServerCall` maps them to `.err` below, which no theorem
evaluates. -/

inductive McpErrorCode where
  | invalidParams
  | methodNotFound
  | internalError

structure McpError where
  code : McpErrorCode
  message : String

def lookupField : List (String × Json) → String → Option Json
  | [], _ => none
  | (k, v) :: rest, key => if k = key then some v else lookupField rest key

/-- Models `args?.key`; `none` models JavaScript `undefined`. -/
def jsonGet (args : Json) (key : String) : Option Json :=
  match args with
  | .obj fs => lookupField fs key
  | _ => none

/-- Models `v ?? d`, nullish coalescing — `undefined` and `null` fall back to the
default, every other value passes through. -/
def nullishDefault (v : Option Json) (d : Json) : Json :=
  match v with
  | none => d
  | some .null => d
  | some j => j

/-- Embeds `validateNumber(value, name)`: accept a number, else throw
`McpError(InvalidParams, name + " must be a valid number")`. -/
def validateNumber (v : Option Json) (name : String) : Except McpError Int :=
  match v with
  | some (.num n) => .ok n
  | _ => .error ⟨.invalidParams, name ++ " must be a valid number"⟩

def textContent (t : String) : ToolContent := .items [⟨"text", some t⟩]

/-- The factorial accumulation loop `let result = 1; for (let i = 2; i <= n;
i++) result *= i` on a non-negative integer `n`.  (For 23 ≤ n ≤ 170 the JS
float loses precision while this value is exact; no claim evaluates the
success branch there.) -/
def factorialValue (n : Int) : Int :=
  (List.range n.toNat).foldl (fun acc k => acc * ((k : Int) + 1)) 1

/-- Embeds `case "factorial"` of the math server handler. -/
def factorialTool (args : Json) : Except McpError ToolContent :=
  match validateNumber (jsonGet args "n") "n" with
  | .error e => .error e
  | .ok n =>
      if n < 0 then .error ⟨.invalidParams, "Factorial requires a non-negative integer"⟩
      else if n > 170 then .error ⟨.invalidParams, "Number too large (would exceed precision)"⟩
      else .ok (textContent (toString n ++ "! = " ++ toString (factorialValue n)))

/-- Embeds `case "random"` of the math server handler: defaults `min = 0`,
`max = 100`, validates both, rejects `min > max`, and then — with
`const result = 10` in the source — always reports the value 10. -/
def randomTool (args : Json) : Except McpError ToolContent :=
  let minV := nullishDefault (jsonGet args "min") (.num 0)
  let maxV := nullishDefault (jsonGet args "max") (.num 100)
  match validateNumber (some minV) "min" with
  | .error e => .error e
  | .ok minN =>
      match validateNumber (some maxV) "max" with
      | .error e => .error e
      | .ok maxN =>
          if minN > maxN then .error ⟨.invalidParams, "min cannot be greater than max"⟩
          else .ok (textContent
            ("Random number between " ++ toString minN ++ " and " ++ toString maxN ++ ": 10"))

/-- Embeds `case "add"` of the math server handler. -/
def addTool (args : Json) : Except McpError ToolContent :=
  match validateNumber (jsonGet args "a") "a" with
  | .error e => .error e
  | .ok a =>
      match validateNumber (jsonGet args "b") "b" with
      | .error e => .error e
      | .ok b => .ok (textContent (toString a ++ " + " ++ toString b ++ " = " ++ toString (a + b)))

/-- Embeds `case "multiply"` of the math server handler. -/
def multiplyTool (args : Json) : Except McpError ToolContent :=
  match validateNumber (jsonGet args "a") "a" with
  | .error e => .error e
  | .ok a =>
      match validateNumber (jsonGet args "b") "b" with
      | .error e => .error e
      | .ok b => .ok (textContent (toString a ++ " × " ++ toString b ++ " = " ++ toString (a * b)))

/-- A handler error becomes a rejected `client.request` on the client side. -/
def liftTool (r : Except McpError ToolContent) : ToolCallOutcome :=
  match r with
  | .ok c => .ok c
  | .error _ => .err

/-- The `tools/call` behaviour of the math server on the embedded cases (see the
section comment for the cases deliberately left out). -/
def mathServerCall (name : String) (args : Json) : ToolCallOutcome :=
  if name = "add" then liftTool (addTool args)
  else if name = "multiply" then liftTool (multiplyTool args)
  else if name = "factorial" then liftTool (factorialTool args)
  else if name = "random" then liftTool (randomTool args)
  else .err

def mathServer : ServerConn := ⟨"math-server", mathServerCall⟩

/-! ## The Conversation Driver: `processQuery` (`lib/mcpClient.ts` 91-166) -/

/-- One typed content block of a reasoning-model response. -/
inductive ContentBlock where
  | text (t : String)
  | toolUse (name : String) (input : Json) (id : String)

structure ModelResponse where
  content : List ContentBlock

/-- The step tags (text, tool_use, tool_result in the source union type). -/
inductive StepType where
  | text
  | toolUse
  | toolResult

/-- One entry of the step trace returned by `processQuery`. -/
structure Step where
  type : StepType
  content : String

inductive Role where
  | user
  | assistant

/-- Message content as it appears in the conversation log: the plain query
string, the block list of the model, or the single-block tool-result message
tagged with the originating `tool_use` id. -/
inductive MessageContent where
  | plainText (s : String)
  | blocks (bs : List ContentBlock)
  | toolResultBlock (toolUseId : String) (result : String)

structure MessageParam where
  role : Role
  content : MessageContent

/-- Content of a `tool_use` step:
`` `Tool: ${toolName}\nInput:\n${JSON.stringify(toolInput, null, 2)}` ``. -/
def toolUseStepContent (name : String) (input : Json) : String :=
  "Tool: " ++ name ++ "\nInput:\n" ++ jsonStringifyIndent input

def textStep (t : String) : Step := ⟨.text, t⟩

/-- The tool transaction recorded when a turn services a `tool_use` block. -/
structure ToolTxn where
  name : String
  input : Json
  id : String
  result : String

/-- The `for (const content of response.content)` scan of one model
response: a text block appends a `text` step and continues; the first
`tool_use` block appends a `tool_use` step and a `tool_result` step, records
the transaction, and `break`s — every later block of the same response,
text or tool-use alike, is dropped. -/
def scanBlocks (servers : List ServerConn) : List ContentBlock → List Step × Option ToolTxn
  | [] => ([], none)
  | .text t :: rest =>
      let r := scanBlocks servers rest
      (textStep t :: r.1, r.2)
  | .toolUse name input id :: _ =>
      let toolResult := executeTool servers name input
      ([⟨.toolUse, toolUseStepContent name input⟩, ⟨.toolResult, toolResult⟩],
       some ⟨name, input, id, toolResult⟩)

structure DriverResult where
  steps : List Step
  modelCalls : Nat

inductive QueryError where
  | noTools
  | modelCallFailed

/-- The `while (true)` loop of `processQuery`, with the reasoning model as a
response oracle: the head response answers the pending
`anthropic.messages.create` call, an exhausted oracle is a model call that
raises.  A turn with no `tool_use` block ends the loop; a turn that serviced
a tool appends the content of the model response and the tool result to the message log
and calls the model again.  `modelCalls` counts the calls consumed on the
successful path. -/
def driverLoop (servers : List ServerConn) :
    List MessageParam → List ModelResponse → Except QueryError DriverResult
  | _, [] => .error .modelCallFailed
  | msgs, r :: rest =>
      match scanBlocks servers r.content with
      | (steps, none) => .ok ⟨steps, 1⟩
      | (steps, some txn) =>
          match driverLoop servers
              (msgs ++ [⟨.assistant, .blocks r.content⟩,
                        ⟨.user, .toolResultBlock txn.id txn.result⟩]) rest with
          | .ok res => .ok ⟨steps ++ res.steps, res.modelCalls + 1⟩
          | .error e => .error e

/-- A tool advertised to the reasoning model (name, description, schema). -/
structure ToolDescriptor where
  name : String
  description : String
  input_schema : Json

/-- Embeds `MCPClient.processQuery`: throw `"No tools available..."` when the
registered tool list is empty, else seed the log with the user query and run
the loop. -/
def processQuery (tools : List ToolDescriptor) (servers : List ServerConn)
    (responses : List ModelResponse) (query : String) : Except QueryError DriverResult :=
  if tools.length = 0 then .error .noTools
  else driverLoop servers [⟨.user, .plainText query⟩] responses

/-- Does a block list contain a `tool_use` block? -/
def hasToolUse : List ContentBlock → Bool
  | [] => false
  | .text _ :: rest => hasToolUse rest
  | .toolUse _ _ _ :: _ => true

/-- The text payloads of a block list, in order. -/
def textsOf : List ContentBlock → List String
  | [] => []
  | .text t :: rest => t :: textsOf rest
  | .toolUse _ _ _ :: rest => textsOf rest

/-! ## Discovery: `connectToServers` (`lib/mcpClient.ts` 54-89) -/

/-- Models `path.isAbsolute` (posix): nonempty and starting with a slash. -/
def isAbsolute (s : String) : Bool :=
  match s.data with
  | [] => false
  | c :: _ => c = '/'

def splitSlashAux (cur : List Char) : List Char → List String
  | [] => [String.mk cur.reverse]
  | c :: rest =>
      if c = '/' then String.mk cur.reverse :: splitSlashAux [] rest
      else splitSlashAux (c :: cur) rest

def splitSlash (s : String) : List String := splitSlashAux [] s.data

/-- Posix path normalization over components: empty components and `.` are
dropped, `..` pops the previous component (and is dropped at the root). -/
def normalizeStack (stack : List String) : List String → List String
  | [] => stack.reverse
  | p :: rest =>
      if p = "" || p = "." then normalizeStack stack rest
      else if p = ".." then normalizeStack (stack.drop 1) rest
      else normalizeStack (p :: stack) rest

/-- Models `path.resolve(cwd, arg)` (posix) for an absolute `cwd`, the only way the
source calls it (`cwd` is `process.cwd()`). -/
def pathResolve (cwd arg : String) : String :=
  let combined := if isAbsolute arg then arg else cwd ++ "/" ++ arg
  "/" ++ String.intercalate "/" (normalizeStack [] (splitSlash combined))

/-- The per-argument mapping of `connectToServers` (`lib/mcpClient.ts`
63-65): `path.isAbsolute(arg) ? arg : path.resolve(process.cwd(), arg)`,
applied to every argument of the descriptor. -/
def resolveArg (cwd arg : String) : String :=
  if isAbsolute arg then arg else pathResolve cwd arg

def resolvedArgs (cwd : String) (args : List String) : List String :=
  args.map (resolveArg cwd)

/-- One tool as advertised by the `tools/list` response of a server. -/
structure ToolListEntry where
  name : String
  description : Option String
  inputSchema : Json

/-- Models `tool.description || tool.name`: the description when truthy (present
and nonempty), else the name. -/
def descOrName (e : ToolListEntry) : String :=
  match e.description with
  | some d => if d = "" then e.name else d
  | none => e.name

def toDescriptor (e : ToolListEntry) : ToolDescriptor :=
  ⟨e.name, descOrName e, e.inputSchema⟩

/-- Behaviour of one configured server during discovery: whether
`client.connect` succeeds, what `tools/list` returns (`none`: the request
raises), and the subsequent `tools/call` behaviour. -/
structure ServerSetup where
  name : String
  connects : Bool
  listing : Option (List ToolListEntry)
  call : String → Json → ToolCallOutcome

inductive SessionError where
  | missingApiKey
  | configUnreadable
  | connectionFailed
  | toolListingFailed
  | query (e : QueryError)

/-- The `for (const [serverName, serverInfo] of ...)` loop of
`connectToServers`.  On success per server: connect, insert into
`this.servers` (the `opened` accumulator), request `tools/list`, append the
converted descriptors.  A failed connect or a failed listing propagates,
aborting the remaining servers; note a server whose listing fails has
already been inserted into `opened`. -/
def connectLoop : List ServerSetup → List String → List ServerConn → List ToolDescriptor →
    List String × Except SessionError (List ServerConn × List ToolDescriptor)
  | [], opened, conns, tools => (opened, .ok (conns, tools))
  | s :: rest, opened, conns, tools =>
      if s.connects then
        match s.listing with
        | some entries =>
            connectLoop rest (opened ++ [s.name]) (conns ++ [⟨s.name, s.call⟩])
              (tools ++ entries.map toDescriptor)
        | none => (opened ++ [s.name], .error .toolListingFailed)
      else (opened, .error .connectionFailed)

/-! ## Session lifecycle: `runQuery` (`lib/actions.ts`) -/

/-- Environment of one session: whether `ANTHROPIC_API_KEY` is set (the
`MCPClient` constructor throws without it), the parsed config (`none`: the
config file is missing or unreadable), and the model-response oracle. -/
structure SessionEnv where
  hasApiKey : Bool
  config : Option (List ServerSetup)
  responses : List ModelResponse

/-- Observable outcome of `runQuery`: its result, the server connections
opened during discovery, and the connections closed before returning. -/
structure RunOutcome where
  result : Except SessionError (List Step)
  openedServers : List String
  closedServers : List String

/-- Embeds `runQuery` of `lib/actions.ts`, statement by statement: construct the
client, `connectToServers`, `processQuery`, `cleanup`, return.  There is no
`try`/`finally` in the source, so the `cleanup` call — which closes every
connection in `this.servers`, swallowing close errors — is reached only
when both previous awaits resolved; on any earlier throw no connection is
closed. -/
def runQuery (env : SessionEnv) (query : String) : RunOutcome :=
  if env.hasApiKey then
    match env.config with
    | none => ⟨.error .configUnreadable, [], []⟩
    | some setups =>
        match connectLoop setups [] [] [] with
        | (opened, .error e) => ⟨.error e, opened, []⟩
        | (opened, .ok (conns, tools)) =>
            match processQuery tools conns env.responses query with
            | .error e => ⟨.error (.query e), opened, []⟩
            | .ok res => ⟨.ok res.steps, opened, opened⟩
  else ⟨.error .missingApiKey, [], []⟩

/-! ## Spec-side definition for the normalization refinement (claim C4) -/

/-- Per-item rule of the spec, with the JS-truthiness amendment: the
item `text` field when present and nonempty, else the item serialized to text. -/
def itemTextSpec (c : ContentItem) : String :=
  match c.text with
  | some t => if t ≠ "" then t else jsonStringify (jsonOfItem c)
  | none => jsonStringify (jsonOfItem c)

/-- The normalization as the spec words it, transcribed by result shape (with the
JS-truthiness amendment: an empty plain string, like absent content, yields
the fixed message): a list joins the per-item texts with newlines, a
nonempty plain string passes through, absent content becomes the fixed
message, any other object is serialized readably. -/
def normalizeContentSpec : ToolContent → String
  | .items xs => String.intercalate "\n" (xs.map itemTextSpec)
  | .plain s => if s = "" then noOutputMsg else s
  | .absent => noOutputMsg
  | .other j => jsonStringifyIndent j

/-! ## A decidable substring test (for stating what a result string does and
does not indicate) -/

def listContainsB (sub : List Char) : List Char → Bool
  | [] => sub.isEmpty
  | c :: rest => sub.isPrefixOf (c :: rest) || listContainsB sub rest

/-- Does `s` contain `sub` as a contiguous substring? -/
def strContainsB (s sub : String) : Bool := listContainsB sub.data s.data

/-! ## Concrete scenarios used by counterexamples and witnesses -/

/-- A connection whose every `tools/call` request fails. -/
def downServer : ServerConn := ⟨"down-server", fun _ _ => .err⟩

/-- A connection that answers every `tools/call` with a fixed text item. -/
def echoServer : ServerConn := ⟨"echo-server", fun _ _ => .ok (textContent "hello")⟩

def factorialArgs171 : Json := .obj [("n", .num 171)]

/-- The `factorial` entry of the math server `tools/list` response. -/
def factorialListEntry : ToolListEntry :=
  ⟨"factorial", some "Calculate the factorial of a number",
   .obj [("type", .str "object"),
         ("properties", .obj [("n", .obj [("type", .str "number"),
                                          ("description", .str "Non-negative integer")])]),
         ("required", .arr [.str "n"])]⟩

/-- The math server as configured in `mcpConfig.json`: connects, lists its
tools, then serves `tools/call` requests. -/
def mathServerSetup : ServerSetup := ⟨"math-server", true, some [factorialListEntry], mathServerCall⟩

/-- A session whose discovery succeeds (opening the math server connection)
and whose first reasoning-model call raises. -/
def modelFailureEnv : SessionEnv := ⟨true, some [mathServerSetup], []⟩

def demoTools : List ToolDescriptor := [toDescriptor factorialListEntry]

/-- A model response made only of text blocks. -/
def textOnlyResponse : ModelResponse := ⟨[.text "Hello", .text "World"]⟩

/-- A model response with a text block, then two tool-use blocks, then a
trailing text block. -/
def toolTurnResponse : ModelResponse :=
  ⟨[.text "Let me compute.",
    .toolUse "add" (.obj [("a", .num 1), ("b", .num 2)]) "toolu_1",
    .toolUse "multiply" (.obj [("a", .num 3), ("b", .num 4)]) "toolu_2",
    .text "ignored"]⟩

def finalResponse : ModelResponse := ⟨[.text "All done."]⟩

/-! ## Helper lemmas -/

theorem textsOf_length_of_no_toolUse :
    ∀ blocks, hasToolUse blocks = false → (textsOf blocks).length = blocks.length := by
  intro blocks
  induction blocks with
  | nil => intro _; rfl
  | cons b rest ih =>
      intro h
      cases b with
      | text t =>
          have h' : hasToolUse rest = false := by simpa [hasToolUse] using h
          simp [textsOf, ih h']
      | toolUse n i id => simp [hasToolUse] at h

theorem scanBlocks_of_no_toolUse (servers : List ServerConn) :
    ∀ blocks, hasToolUse blocks = false →
      scanBlocks servers blocks = ((textsOf blocks).map textStep, none) := by
  intro blocks
  induction blocks with
  | nil => intro _; rfl
  | cons b rest ih =>
      intro h
      cases b with
      | text t =>
          have h' : hasToolUse rest = false := by simpa [hasToolUse] using h
          simp [scanBlocks, textsOf, ih h']
      | toolUse n i id => simp [hasToolUse] at h

theorem scanBlocks_first_toolUse (servers : List ServerConn)
    (pre : List ContentBlock) (name : String) (input : Json) (id : String)
    (post : List ContentBlock) (h : hasToolUse pre = false) :
    scanBlocks servers (pre ++ .toolUse name input id :: post) =
      ((textsOf pre).map textStep ++
        [⟨.toolUse, toolUseStepContent name input⟩,
         ⟨.toolResult, executeTool servers name input⟩],
       some ⟨name, input, id, executeTool servers name input⟩) := by
  revert h
  induction pre with
  | nil => intro _; rfl
  | cons b rest ih =>
      intro h
      cases b with
      | text t =>
          have h' : hasToolUse rest = false := by simpa [hasToolUse] using h
          simp [scanBlocks, textsOf, ih h']
      | toolUse n' i' id' => simp [hasToolUse] at h

/-! ## Claim C9 -/

/-- Claim C9: calling `processQuery` while the registered tool list is empty
throws "No tools available" — the result is the `noTools` error for every
query, every server set and every model-response oracle, so no step is
produced and no reasoning-model call is made (the outcome does not depend on
the oracle at all). -/
theorem processQuery_empty_tools_throws (servers : List ServerConn)
    (responses : List ModelResponse) (query : String) :
    processQuery [] servers responses query = .error .noTools := rfl

/-! ## Claim C7 -/

/-- Claim C7: when the first model response contains only text blocks (no
`tool_use`), the query returns exactly one `text` step per text block, in
block order, after exactly one model call; the step count equals the block
count. -/
theorem processQuery_text_only (tools : List ToolDescriptor) (servers : List ServerConn)
    (r : ModelResponse) (rest : List ModelResponse) (query : String)
    (htools : tools.length ≠ 0) (hno : hasToolUse r.content = false) :
    processQuery tools servers (r :: rest) query =
      .ok ⟨(textsOf r.content).map textStep, 1⟩ ∧
    ((textsOf r.content).map textStep).length = r.content.length := by
  constructor
  · unfold processQuery
    rw [if_neg htools]
    simp only [driverLoop]
    rw [scanBlocks_of_no_toolUse servers r.content hno]
  · simp [textsOf_length_of_no_toolUse r.content hno]

/-- Witness for C7: a concrete two-text-block response. -/
theorem processQuery_text_only_witness :
    demoTools.length ≠ 0 ∧ hasToolUse textOnlyResponse.content = false ∧
    (processQuery demoTools [mathServer] [textOnlyResponse] "hi" =
        .ok ⟨(textsOf textOnlyResponse.content).map textStep, 1⟩ ∧
      ((textsOf textOnlyResponse.content).map textStep).length =
        textOnlyResponse.content.length) :=
  ⟨by decide, by decide,
   processQuery_text_only demoTools [mathServer] textOnlyResponse [] "hi" (by decide) (by decide)⟩

/-! ## Claim C2 -/

theorem except_match_eq_map (x : Except QueryError DriverResult) (steps : List Step) :
    (match x with
     | .ok res => Except.ok (⟨steps ++ res.steps, res.modelCalls + 1⟩ : DriverResult)
     | .error e => Except.error e) =
    Except.map (fun res => (⟨steps ++ res.steps, res.modelCalls + 1⟩ : DriverResult)) x := by
  cases x <;> rfl

/-- Claim C2: when a model response consists of blocks `pre` (no tool-use),
then a first `tool_use` block, then arbitrary further blocks `post`, the
turn contributes exactly the text steps of `pre` followed by exactly one
`tool_use` step and exactly one `tool_result` step — nothing of `post` is
serviced or emitted — and the query result is those steps followed by the
steps of the continuation, with one model call counted for this turn. -/
theorem processQuery_tool_turn (tools : List ToolDescriptor) (servers : List ServerConn)
    (pre post : List ContentBlock) (name : String) (input : Json) (id : String)
    (rest : List ModelResponse) (query : String)
    (htools : tools.length ≠ 0) (hpre : hasToolUse pre = false) :
    processQuery tools servers (⟨pre ++ .toolUse name input id :: post⟩ :: rest) query =
      Except.map
        (fun res => ⟨((textsOf pre).map textStep ++
            [⟨.toolUse, toolUseStepContent name input⟩,
             ⟨.toolResult, executeTool servers name input⟩]) ++ res.steps,
          res.modelCalls + 1⟩)
        (driverLoop servers
          ([⟨.user, .plainText query⟩] ++
            [⟨.assistant, .blocks (pre ++ .toolUse name input id :: post)⟩,
             ⟨.user, .toolResultBlock id (executeTool servers name input)⟩]) rest) := by
  unfold processQuery
  rw [if_neg htools]
  simp only [driverLoop]
  rw [scanBlocks_first_toolUse servers pre name input id post hpre]
  exact except_match_eq_map _ _

/-- Witness for C2: a concrete turn whose response carries a leading text
block, two tool-use blocks and a trailing text block, against the math
server, followed by a final text-only turn. -/
theorem processQuery_tool_turn_witness :
    demoTools.length ≠ 0 ∧
    hasToolUse [ContentBlock.text "Let me compute."] = false ∧
    processQuery demoTools [mathServer]
        (⟨[ContentBlock.text "Let me compute."] ++
          .toolUse "add" (.obj [("a", .num 1), ("b", .num 2)]) "toolu_1" ::
            [.toolUse "multiply" (.obj [("a", .num 3), ("b", .num 4)]) "toolu_2",
             .text "ignored"]⟩ :: [finalResponse]) "1+2?" =
      Except.map
        (fun res => ⟨((textsOf [ContentBlock.text "Let me compute."]).map textStep ++
            [⟨.toolUse, toolUseStepContent "add" (.obj [("a", .num 1), ("b", .num 2)])⟩,
             ⟨.toolResult, executeTool [mathServer] "add" (.obj [("a", .num 1), ("b", .num 2)])⟩]) ++
              res.steps,
          res.modelCalls + 1⟩)
        (driverLoop [mathServer]
          ([⟨.user, .plainText "1+2?"⟩] ++
            [⟨.assistant, .blocks ([ContentBlock.text "Let me compute."] ++
               .toolUse "add" (.obj [("a", .num 1), ("b", .num 2)]) "toolu_1" ::
                 [.toolUse "multiply" (.obj [("a", .num 3), ("b", .num 4)]) "toolu_2",
                  .text "ignored"])⟩,
             ⟨.user, .toolResultBlock "toolu_1"
               (executeTool [mathServer] "add" (.obj [("a", .num 1), ("b", .num 2)]))⟩])
          [finalResponse]) :=
  ⟨by decide, by decide,
   processQuery_tool_turn demoTools [mathServer]
     [ContentBlock.text "Let me compute."]
     [.toolUse "multiply" (.obj [("a", .num 3), ("b", .num 4)]) "toolu_2", .text "ignored"]
     "add" (.obj [("a", .num 1), ("b", .num 2)]) "toolu_1" [finalResponse] "1+2?"
     (by decide) (by decide)⟩

/-! ## Claim C5 -/

/-- Claim C5: when no connected server accepts the tool name (every request
for it fails), `executeTool` returns — it cannot throw, being a total
function into `String` — the descriptive not-found string, which contains
the tool name and the words "not found". -/
theorem executeTool_not_found (servers : List ServerConn) (toolName : String) (input : Json)
    (h : ∀ s ∈ servers, s.call toolName input = .err) :
    executeTool servers toolName input = notFoundMsg toolName ∧
    (∃ a b, executeTool servers toolName input = a ++ toolName ++ b) ∧
    (∃ a b, executeTool servers toolName input = a ++ "not found" ++ b) := by
  have key : executeTool servers toolName input = notFoundMsg toolName := by
    induction servers with
    | nil => rfl
    | cons s rest ih =>
        have hs : s.call toolName input = .err := h s (List.mem_cons_self s rest)
        have hrest : ∀ q ∈ rest, q.call toolName input = .err :=
          fun q hq => h q (List.mem_cons_of_mem s hq)
        simp only [executeTool, hs]
        exact ih hrest
  refine ⟨key, ⟨"Tool \x27", "\x27 not found in any server.", key⟩, ?_⟩
  refine ⟨"Tool \x27" ++ toolName ++ "\x27 ", " in any server.", ?_⟩
  rw [key]
  unfold notFoundMsg
  rw [show ("\x27 not found in any server." : String) =
        "\x27 " ++ "not found" ++ " in any server." from rfl]
  simp [String.append_assoc]

/-- Witness for C5: a single all-failing server and the tool name
"frobnicate". -/
theorem executeTool_not_found_witness :
    (∀ s ∈ [downServer], s.call "frobnicate" Json.null = .err) ∧
    (executeTool [downServer] "frobnicate" Json.null = notFoundMsg "frobnicate" ∧
      (∃ a b, executeTool [downServer] "frobnicate" Json.null = a ++ "frobnicate" ++ b) ∧
      (∃ a b, executeTool [downServer] "frobnicate" Json.null = a ++ "not found" ++ b)) :=
  ⟨fun s hs => by rw [List.mem_singleton] at hs; subst hs; rfl,
   executeTool_not_found [downServer] "frobnicate" Json.null
     (fun s hs => by rw [List.mem_singleton] at hs; subst hs; rfl)⟩

/-! ## Claim C6 -/

/-- Claim C6: `executeTool` tries the connections sequentially in
registration order; every failing server before the first succeeding one is
skipped non-fatally, and the first server whose request resolves determines
the result (its normalized content) — the servers after it are never
consulted, since the result does not depend on `rest`. -/
theorem executeTool_first_success (pre : List ServerConn) (srv : ServerConn)
    (rest : List ServerConn) (toolName : String) (input : Json) (content : ToolContent)
    (hpre : ∀ p ∈ pre, p.call toolName input = .err)
    (hsrv : srv.call toolName input = .ok content) :
    executeTool (pre ++ srv :: rest) toolName input = normalizeContent content := by
  induction pre with
  | nil => simp only [List.nil_append, executeTool, hsrv]
  | cons p ps ih =>
      have hp : p.call toolName input = .err := hpre p (List.mem_cons_self p ps)
      have hps : ∀ q ∈ ps, q.call toolName input = .err :=
        fun q hq => hpre q (List.mem_cons_of_mem p hq)
      simp only [List.cons_append, executeTool, hp]
      exact ih hps

/-- Witness for C6: a failing server registered before a succeeding one,
with a further server after it. -/
theorem executeTool_first_success_witness :
    (∀ p ∈ [downServer], p.call "anything" Json.null = .err) ∧
    echoServer.call "anything" Json.null = .ok (textContent "hello") ∧
    executeTool ([downServer] ++ echoServer :: [mathServer]) "anything" Json.null =
      normalizeContent (textContent "hello") :=
  ⟨fun p hp => by rw [List.mem_singleton] at hp; subst hp; rfl, rfl,
   executeTool_first_success [downServer] echoServer [mathServer] "anything" Json.null
     (textContent "hello")
     (fun p hp => by rw [List.mem_singleton] at hp; subst hp; rfl) rfl⟩

/-! ## Claim C3 -/

/-- Counterexample to C3 as stated: invoking `factorial` with `n = 171`
through the Tool Invoker against the math server yields the not-found
string — which does not contain "too large" — not a result string
indicating "too large".  (The server does reject with the "too large"
error, but the client swallows the rejection and falls through to the
not-found message.) -/
theorem factorial_171_counterexample :
    executeTool [mathServer] "factorial" factorialArgs171 = notFoundMsg "factorial" ∧
    strContainsB (executeTool [mathServer] "factorial" factorialArgs171) "too large" = false := by
  exact ⟨rfl, by decide⟩

/-- Claim C3 amended: on `factorial(n = 171)` the math server handler throws
`McpError(InvalidParams, "Number too large (would exceed precision)")`; the
client request therefore rejects, `executeTool` treats the failure as
non-fatal, and — the math server being the only server — the externally
visible outcome is the not-found string naming the tool factorial
(a result string, not a raised exception and not a numeric answer; the
"too large" wording is not surfaced, but "not found" is). -/
theorem factorial_171_amended :
    factorialTool factorialArgs171 =
      .error ⟨.invalidParams, "Number too large (would exceed precision)"⟩ ∧
    mathServerCall "factorial" factorialArgs171 = .err ∧
    executeTool [mathServer] "factorial" factorialArgs171 =
      "Tool \x27factorial\x27 not found in any server." ∧
    strContainsB (executeTool [mathServer] "factorial" factorialArgs171) "not found" = true := by
  exact ⟨rfl, rfl, rfl, by decide⟩

/-! ## Claim C4 -/

/-- Counterexample to C4 as stated: JavaScript truthiness, not presence,
decides both fallbacks.  A plain empty string is not returned as-is but
becomes the fixed no-output message, and a list item whose `.text` field is
present but empty is serialized instead of contributing its text. -/
theorem normalize_falsy_counterexample :
    normalizeContent (.plain "") = noOutputMsg ∧
    noOutputMsg ≠ "" ∧
    normalizeContent (.items [⟨"text", some ""⟩]) =
      "\x7b\"type\":\"text\",\"text\":\"\"\x7d" ∧
    ("\x7b\"type\":\"text\",\"text\":\"\"\x7d" : String) ≠ "" := by
  exact ⟨rfl, by decide, rfl, by decide⟩

theorem itemText_eq_spec (c : ContentItem) : itemText c = itemTextSpec c := by
  cases c with
  | mk ty tx =>
      cases tx with
      | none => rfl
      | some t =>
          by_cases h : t = "" <;> simp [itemText, itemTextSpec, h]

/-- Claim C4 amended: the normalization of the Tool Invoker agrees everywhere
with the shape-by-shape description of the spec once "present" is read as
JS truthiness: a list becomes the `.text` of each item when present and
nonempty (else the item serialized), joined by newlines; a nonempty plain
string is returned as-is while the empty string, like absent content,
becomes the fixed no-output message; any other object is serialized
readably. -/
theorem normalizeContent_eq_spec (content : ToolContent) :
    normalizeContent content = normalizeContentSpec content := by
  cases content with
  | absent => rfl
  | plain s =>
      by_cases h : s = "" <;> simp [normalizeContent, normalizeContentSpec, contentFalsy, h]
  | items xs =>
      have hfun : itemText = itemTextSpec := funext itemText_eq_spec
      simp [normalizeContent, normalizeContentSpec, contentFalsy, hfun]
  | other j => rfl

/-! ## Claim C8 -/

/-- Counterexample to C8 as stated: the source resolves every non-absolute
argument, with no notion of "file-path argument" — a non-path flag argument
does not pass through unchanged. -/
theorem resolveArg_flag_counterexample :
    resolveArg "/home/user" "--verbose" = "/home/user/--verbose" ∧
    resolveArg "/home/user" "--verbose" ≠ "--verbose" := by
  exact ⟨rfl, by decide⟩

theorem isAbsolute_pathResolve (cwd arg : String) :
    isAbsolute (pathResolve cwd arg) = true := by
  have h : ∀ x : String, isAbsolute ("/" ++ x) = true := by
    intro x; cases x with | mk d => rfl
  exact h _

/-- Claim C8 amended: during discovery every server argument is mapped
individually against the current working directory: an already-absolute
argument is left unchanged, and every other argument — file path or not —
is resolved against the cwd, yielding an absolute path; the argument list
keeps its length (and hence its order). -/
theorem resolvedArgs_amended (cwd : String) (args : List String)
    (_hcwd : isAbsolute cwd = true) :
    (resolvedArgs cwd args).length = args.length ∧
    ∀ arg ∈ args,
      (isAbsolute arg = true → resolveArg cwd arg = arg) ∧
      (isAbsolute arg = false → resolveArg cwd arg = pathResolve cwd arg) ∧
      isAbsolute (resolveArg cwd arg) = true := by
  refine ⟨List.length_map args (resolveArg cwd), ?_⟩
  intro arg _
  refine ⟨fun ha => by simp [resolveArg, ha], fun ha => by simp [resolveArg, ha], ?_⟩
  by_cases ha : isAbsolute arg = true
  · simp [resolveArg, ha]
  · have ha' : isAbsolute arg = false := by simpa using ha
    simpa [resolveArg, ha'] using isAbsolute_pathResolve cwd arg

/-- Witness for C8 amended: a concrete cwd with one absolute, one relative
path-like and one flag-like argument. -/
theorem resolvedArgs_amended_witness :
    isAbsolute "/home/user" = true ∧
    ((resolvedArgs "/home/user" ["/usr/bin/node", "./mcp-tools/math-server.js", "--verbose"]).length =
        (["/usr/bin/node", "./mcp-tools/math-server.js", "--verbose"] : List String).length ∧
      ∀ arg ∈ (["/usr/bin/node", "./mcp-tools/math-server.js", "--verbose"] : List String),
        (isAbsolute arg = true → resolveArg "/home/user" arg = arg) ∧
        (isAbsolute arg = false → resolveArg "/home/user" arg = pathResolve "/home/user" arg) ∧
        isAbsolute (resolveArg "/home/user" arg) = true) :=
  ⟨rfl, resolvedArgs_amended "/home/user"
    ["/usr/bin/node", "./mcp-tools/math-server.js", "--verbose"] rfl⟩

/-! ## Claim C10 -/

theorem randomTool_eval_pair (m M : Int) :
    randomTool (.obj [("min", .num m), ("max", .num M)]) =
      if m > M then .error ⟨.invalidParams, "min cannot be greater than max"⟩
      else .ok (textContent
        ("Random number between " ++ toString m ++ " and " ++ toString M ++ ": 10")) := rfl

/-- Claim C10: the `random` tool is deterministic — for any numeric
`min ≤ max`, and likewise when both are omitted (defaults 0 and 100), the
result text is exactly "Random number between min and max: 10": the
reported value is the constant 10 of the source, independent of the
bounds. -/
theorem randomTool_always_ten (m M : Int) (h : m ≤ M) :
    randomTool (.obj [("min", .num m), ("max", .num M)]) =
      .ok (textContent
        ("Random number between " ++ toString m ++ " and " ++ toString M ++ ": 10")) ∧
    randomTool (.obj []) =
      .ok (textContent "Random number between 0 and 100: 10") := by
  constructor
  · rw [randomTool_eval_pair, if_neg (by omega)]
  · rfl

/-- Witness for C10: `min = 3`, `max = 7`. -/
theorem randomTool_always_ten_witness :
    (3 : Int) ≤ 7 ∧
    (randomTool (.obj [("min", .num 3), ("max", .num 7)]) =
        .ok (textContent
          ("Random number between " ++ toString (3 : Int) ++ " and " ++
            toString (7 : Int) ++ ": 10")) ∧
      randomTool (.obj []) =
        .ok (textContent "Random number between 0 and 100: 10")) :=
  ⟨by decide, randomTool_always_ten 3 7 (by decide)⟩

/-! ## Claim C1 -/

/-- Claim C1 is a code bug: `lib/actions.ts` has no `try`/`finally`, so when
the first reasoning-model call raises after discovery has opened the math
server connection, `runQuery` propagates the error with the connection still
open — `cleanup` never runs and no close call is issued — contradicting the
documentation of the repository itself, which wraps the same sequence in
`try { ... } finally { await client.cleanup(); }` with the comment "Always
cleanup connections".  This theorem evaluates the embedded `runQuery` at
that failing session. -/
theorem runQuery_cleanup_skipped_on_model_failure :
    (runQuery modelFailureEnv "What is 171 factorial?").openedServers = ["math-server"] ∧
    (runQuery modelFailureEnv "What is 171 factorial?").closedServers = [] ∧
    (runQuery modelFailureEnv "What is 171 factorial?").result =
      .error (.query .modelCallFailed) := by
  exact ⟨rfl, rfl, rfl⟩
